import Mathlib

set_option linter.unusedVariables false

/-! Shallow embedding of `tumblr_backup.py` (class `TumblrBackup`): the NPF
content-block renderer `process_npf_content_blocks`, the post renderer
`convert_to_markdown`, the per-day archive writer `save_daily_posts`, and the
helpers they use (`is_external_attachments`, `is_youtube_url`, `delete_post`).

External effects are made explicit parameters:
* `download_attachments` is modelled by a resolver callback `r : String → String`
  (url to relative path, or the url itself on failure); every invocation is
  recorded in the result.
* the `ZoneInfo("Australia/Sydney")` timezone database is modelled by an offset
  function `tz : Int → Int` (epoch seconds to utc-offset seconds at that instant).
* the filesystem is an association list `List (String × String)` from path to
  content; a write conses a new binding.
* the HTTP outcome of `delete_post` is a callback `d : String → Bool`.

Python string operations are embedded as structurally recursive functions over
character lists with the exact `str.split` / `str.lower` / `in` semantics used
by the source (all separators in the source are single characters). -/

namespace TB

/-- Python `sep.join(parts)`. -/
def joinWith (sep : String) : List String → String
  | [] => ""
  | [a] => a
  | a :: b :: rest => a ++ sep ++ joinWith sep (b :: rest)

/-- Helper for `splitChar`: accumulate the current piece (reversed). -/
def splitCharAux (c : Char) : List Char → List Char → List String
  | [], acc => [String.mk acc.reverse]
  | x :: rest, acc =>
    if x = c then String.mk acc.reverse :: splitCharAux c rest []
    else splitCharAux c rest (x :: acc)

/-- Python `s.split(c)` for a one-character separator `c` (the only separators
the source uses: `'/'` and `'\n'`). -/
def splitChar (c : Char) (s : String) : List String :=
  splitCharAux c s.toList []

/-- Python `pat in s` over character lists. -/
def containsSub : List Char → List Char → Bool
  | s, pat =>
    match s with
    | [] => pat.isEmpty
    | _ :: rest => pat.isPrefixOf s || containsSub rest pat

/-- Python `pat in s` substring test on strings. -/
def strContains (s pat : String) : Bool :=
  containsSub s.toList pat.toList

/-- Python `s.lower()` (per character, as for the ascii urls involved). -/
def lowerStr (s : String) : String :=
  String.mk (s.toList.map Char.toLower)

/-- Python `s.rstrip()`: drop trailing whitespace characters. -/
def rstripStr (s : String) : String :=
  String.mk ((s.toList.reverse.dropWhile Char.isWhitespace).reverse)

/-- The double-quote character, written via its code point. -/
def dq : Char := Char.ofNat 34

/-- `TumblrBackup.is_external_attachments` (tumblr_backup.py:204-219): a
substring test of the lowercased url against a per-kind domain list. -/
def is_external_attachments (url attachments_type : String) : Bool :=
  if attachments_type == "video" then
    (["youtube.com", "youtu.be", "vimeo.com", "instagram.com"]).any
      (fun domain => strContains (lowerStr url) domain)
  else if attachments_type == "audio" then
    (["spotify.com", "soundcloud.com", "bandcamp.com"]).any
      (fun domain => strContains (lowerStr url) domain)
  else false

/-- `TumblrBackup.is_youtube_url` (tumblr_backup.py:221-231). -/
def is_youtube_url (url : String) : Bool :=
  strContains (lowerStr url) ("youtube.com") || strContains (lowerStr url) ("youtu.be")

/-- One NPF content block, the dict shapes `process_npf_content_blocks`
consumes; absent dict keys are pre-resolved to the defaults the Python `get`
calls supply (`""`, `[]`), except `title`, whose default is the block url. -/
inductive Block
  | text (txt : String) (subtype : String)
  | image (media : List String)
  | video (url : String)
  | audio (url : String)
  | link (url : String) (title : Option String)
  | other
  deriving DecidableEq

/-- One entry of a post's reblog trail (tumblr_backup.py:372-387). -/
structure TrailEntry where
  blog_name : String := "unknown"
  content : List Block := []
  deriving DecidableEq

/-- One post record with the fields `convert_to_markdown` and
`save_daily_posts` read; missing keys are pre-resolved to the Python `get`
defaults, and fields whose presence (not only truthiness) matters are
`Option`s. -/
structure Post where
  type : String := "unknown"
  timestamp : Int := 0
  tags : List String := []
  trail : List TrailEntry := []
  content : List Block := []
  title : String := ""
  body : String := ""
  caption : String := ""
  photos : List String := []
  text : String := ""
  source : String := ""
  url : String := ""
  description : String := ""
  video_url : String := ""
  player : List String := []
  artist : String := ""
  track_name : String := ""
  audio_url : String := ""
  audio_source_url : Option String := none
  id_string : Option String := none
  id : Option String := none
  deriving DecidableEq

/-- The `TumblrBackup` constructor configuration read by the embedded
functions; `auth` abstracts whether all three OAuth credentials were given. -/
structure Config where
  output_dir : String := "backup"
  download_images : Bool := true
  download_videos : Bool := true
  download_audio : Bool := true
  delete_after_backup : Bool := false
  add_to_youtube_playlist : Bool := false
  auth : Bool := false
  deriving DecidableEq

/-- Result of a rendering step: the emitted markdown lines, the urls passed to
`download_attachments` (in call order), and the urls appended to
`self.youtube_urls` (in append order). -/
structure RenderOut where
  lines : List String := []
  calls : List String := []
  yt : List String := []
  deriving DecidableEq

/-- Sequential composition of two rendering steps. -/
def RenderOut.append (a b : RenderOut) : RenderOut :=
  ⟨a.lines ++ b.lines, a.calls ++ b.calls, a.yt ++ b.yt⟩

/-- A step that emits nothing and performs no side effect. -/
def RenderOut.empty : RenderOut := ⟨[], [], []⟩

/-- The `quote_prefix = ">" * quote_level if quote_level > 0 else ""` of
`process_npf_content_blocks` (tumblr_backup.py:246). -/
def quoteMark (q : Nat) : String :=
  if 0 < q then String.mk (List.replicate q '>') else ""

/-- The blank separator line `quote_prefix.rstrip() if quote_prefix else ""`
appended between blocks. -/
def sepLine (q : Nat) : String :=
  if quoteMark q ≠ "" then rstripStr (quoteMark q) else ""

/-- The separator appended inside each block branch when `i < len(blocks)-1`. -/
def sepIf (q : Nat) (isLast : Bool) : List String :=
  if isLast then [] else [sepLine q]

/-- The subtype if-chain of the text branch (tumblr_backup.py:258-267),
applied to the whole text value before splitting on newlines. -/
def subtypeTransform (subtype txt : String) : String :=
  if subtype == "heading1" then "# " ++ txt
  else if subtype == "heading2" then "## " ++ txt
  else if subtype == "quote" then "> " ++ txt
  else if subtype == "indented" then "  " ++ txt
  else if subtype == "chat" then "**" ++ txt ++ "**"
  else txt

/-- One iteration of the `for i, block in enumerate(blocks)` loop of
`process_npf_content_blocks` (tumblr_backup.py:248-333); `isLast` stands for
`i = len(blocks) - 1` and `r` models `download_attachments`. -/
def blockOut (cfg : Config) (r : String → String) (q : Nat) (isLast : Bool) :
    Block → RenderOut
  | .text txt subtype =>
    if txt ≠ "" then
      { lines := ((splitChar '\n' (subtypeTransform subtype txt)).map
          (fun l => quoteMark q ++ l)) ++ sepIf q isLast }
    else .empty
  | .image media =>
    match media.head? with
    | none => .empty
    | some u =>
      if u ≠ "" then
        if cfg.download_images then
          { lines := [quoteMark q ++ "![Image](" ++ r u ++ ")"] ++ sepIf q isLast,
            calls := [u] }
        else
          { lines := [quoteMark q ++ "![Image](" ++ u ++ ")"] ++ sepIf q isLast }
      else .empty
  | .video u =>
    if u ≠ "" then
      let yt := if cfg.add_to_youtube_playlist && is_youtube_url u then [u] else []
      if cfg.download_videos && !is_external_attachments u ("video") then
        { lines := [quoteMark q ++ "[Video](" ++ r u ++ ")"] ++ sepIf q isLast,
          calls := [u], yt := yt }
      else
        { lines := [quoteMark q ++ "[Video](" ++ u ++ ")"] ++ sepIf q isLast, yt := yt }
    else .empty
  | .audio u =>
    if u ≠ "" then
      if cfg.download_audio && !is_external_attachments u ("audio") then
        { lines := [quoteMark q ++ "[Audio](" ++ r u ++ ")"] ++ sepIf q isLast,
          calls := [u] }
      else
        { lines := [quoteMark q ++ "[Audio](" ++ u ++ ")"] ++ sepIf q isLast }
    else .empty
  | .link u title =>
    if u ≠ "" then
      { lines := [quoteMark q ++ "[" ++ title.getD u ++ "](" ++ u ++ ")"] ++ sepIf q isLast }
    else .empty
  | .other => .empty

/-- `TumblrBackup.process_npf_content_blocks` (tumblr_backup.py:233-335). -/
def processBlocks (cfg : Config) (r : String → String) : List Block → Nat → RenderOut
  | [], _ => .empty
  | [b], q => blockOut cfg r q true b
  | b :: b2 :: rest, q =>
    (blockOut cfg r q false b).append (processBlocks cfg r (b2 :: rest) q)

/-- Zero-padded two-digit numeral of an `strftime` field. -/
def two_digits (n : Nat) : String :=
  if n < 10 then "0" ++ toString n else toString n

/-- `datetime.fromtimestamp(timestamp, tz=self.tz).strftime("%H:%M")`
(tumblr_backup.py:355,361), with the timezone database abstracted as the
offset function `tz`. -/
def strftimeHM (tz : Int → Int) (timestamp : Int) : String :=
  let s := ((timestamp + tz timestamp) % 86400).toNat
  two_digits (s / 3600) ++ ":" ++ two_digits ((s % 3600) / 60)

/-- `re.search(r'src="([^"]+)"', s)` (tumblr_backup.py:460): scan for the
first position where `src="` is followed by at least one non-quote character
and then a closing quote; return the captured group. -/
def srcMatch : List Char → Option String
  | [] => none
  | c :: rest =>
    if (c :: rest).take 5 = ['s', 'r', 'c', '=', dq] then
      let after := (c :: rest).drop 5
      let v := after.takeWhile (fun ch => ch ≠ dq)
      if v ≠ [] ∧ v.length < after.length then some (String.mk v)
      else srcMatch rest
    else srcMatch rest

/-- The legacy video branch's url extraction (tumblr_backup.py:452-462):
fall back to the last player variant's embed code, extracting its `src`
attribute when one is present. -/
def legacyVideoUrl (p : Post) : String :=
  let vu := p.video_url
  if vu = "" ∧ p.player ≠ [] then
    let ec := (p.player.getLast?).getD ""
    if ec ≠ "" ∧ strContains ec ("src=") then
      match srcMatch ec.toList with
      | some v => v
      | none => ec
    else ec
  else vu

/-- The legacy fallback dispatch of `convert_to_markdown`
(tumblr_backup.py:396-497), reached when both `trail` and `content` are
empty. -/
def legacyLines (cfg : Config) (r : String → String) (p : Post) : RenderOut :=
  if p.type == "text" then
    { lines := (if p.title ≠ "" then ["## " ++ p.title, ""] else []) ++ [p.body] }
  else if p.type == "photo" then
    RenderOut.append { lines := if p.caption ≠ "" then [p.caption, ""] else [] }
      ((p.photos.map (fun u =>
        if u ≠ "" then
          if cfg.download_images then
            ({ lines := ["![Photo](" ++ r u ++ ")", ""], calls := [u] } : RenderOut)
          else
            ({ lines := ["![Photo](" ++ u ++ ")", ""] } : RenderOut)
        else .empty)).foldr RenderOut.append .empty)
  else if p.type == "quote" then
    { lines := ["> " ++ p.text, ""] ++
        (if p.source ≠ "" then ["â€” " ++ p.source, ""] else []) }
  else if p.type == "link" then
    { lines := ["## [" ++ p.title ++ "](" ++ p.url ++ ")", ""] ++
        (if p.description ≠ "" then [p.description, ""] else []) }
  else if p.type == "video" then
    RenderOut.append { lines := if p.caption ≠ "" then [p.caption, ""] else [] }
      (let vu := legacyVideoUrl p
       if vu ≠ "" then
         if cfg.download_videos && !is_external_attachments vu ("video") then
           ({ lines := ["[Video](" ++ r vu ++ ")", ""], calls := [vu] } : RenderOut)
         else
           ({ lines := ["[Video](" ++ vu ++ ")", ""] } : RenderOut)
       else .empty)
  else if p.type == "audio" then
    RenderOut.append
      { lines := (if p.artist ≠ "" ∨ p.track_name ≠ "" then
            ["## " ++ p.artist ++ " - " ++ p.track_name, ""] else []) ++
          (if p.caption ≠ "" then [p.caption, ""] else []) }
      (let au := if p.audio_url = "" then p.audio_source_url.getD "" else p.audio_url
       if au ≠ "" then
         if cfg.download_audio && !is_external_attachments au ("audio") then
           ({ lines := ["[Audio](" ++ r au ++ ")", ""], calls := [au] } : RenderOut)
         else
           ({ lines := ["[Audio](" ++ au ++ ")", ""] } : RenderOut)
       else .empty)
  else .empty

/-- One iteration of the trail loop of `convert_to_markdown`
(tumblr_backup.py:375-387): the `<blog_name>:` line, then — only when the
entry's content list is non-empty — the blocks at quote level 1 and a blank
line. -/
def trailEntryOut (cfg : Config) (r : String → String) (e : TrailEntry) : RenderOut :=
  let nameLine : RenderOut := { lines := [e.blog_name ++ ":"] }
  if e.content ≠ [] then
    nameLine.append ((processBlocks cfg r e.content 1).append { lines := [""] })
  else nameLine

/-- `TumblrBackup.convert_to_markdown` (tumblr_backup.py:337-499), as the
`md_content` line list together with the recorded side effects, on the domain
where `datetime.fromtimestamp` accepts the timestamp (`convertResult` below
adds that failure mode); every field access degrades to its `get` default. -/
def convertLines (cfg : Config) (tz : Int → Int) (r : String → String)
    (p : Post) (include_timestamp_heading : Bool) : RenderOut :=
  let hdr : List String :=
    if include_timestamp_heading then ["## " ++ strftimeHM tz p.timestamp, ""] else []
  let tagsLines : List String :=
    if p.tags ≠ [] then
      ["Tags: " ++ joinWith (", ") (p.tags.map (fun t => "`" ++ t ++ "`")), ""]
    else []
  let trailOut : RenderOut := (p.trail.map (trailEntryOut cfg r)).foldr RenderOut.append .empty
  let contentOut : RenderOut :=
    if p.content ≠ [] then processBlocks cfg r p.content 0 else .empty
  let legacyOut : RenderOut :=
    if p.trail = [] ∧ p.content = [] then legacyLines cfg r p else .empty
  RenderOut.append { lines := hdr ++ tagsLines }
    (trailOut.append (contentOut.append legacyOut))

/-- The string `"\n".join(md_content)` that `convert_to_markdown` returns. -/
def convert_to_markdown (cfg : Config) (tz : Int → Int) (r : String → String)
    (p : Post) (include_timestamp_heading : Bool) : String :=
  joinWith ("\n") (convertLines cfg tz r p include_timestamp_heading).lines

/-- `TumblrBackup.delete_post` (tumblr_backup.py:501-524): `False` without
OAuth credentials, otherwise the network outcome `d`. -/
def delete_post (cfg : Config) (d : String → Bool) (post_id : String) : Bool :=
  if cfg.auth then d post_id else false

/-- `post.get("id_string", post.get("id", "unknown"))` (tumblr_backup.py:598). -/
def postId (p : Post) : String :=
  p.id_string.getD (p.id.getD ("unknown"))

/-- Observable side effects of one `save_daily_posts` run, in program order. -/
inductive Event
  | resolveCall (url : String)
  | deleteCall (post_id : String) (ok : Bool)
  | fileWrite (path : String) (content : String)
  deriving DecidableEq

/-- Whether a string is a non-empty run of decimal digits. -/
def isDigits (s : String) : Bool :=
  !s.toList.isEmpty && s.toList.all Char.isDigit

/-- Numeric value of a digit string. -/
def digitsVal : List Char → Nat → Nat
  | [], acc => acc
  | c :: rest, acc => digitsVal rest (acc * 10 + (c.toNat - 48))

/-- Numeric value of a digit string, accumulator style. -/
def strToNat (s : String) : Nat := digitsVal s.toList 0

/-- Gregorian leap-year rule. -/
def leapYear (y : Nat) : Bool :=
  y % 4 == 0 && (y % 100 != 0 || y % 400 == 0)

/-- Days in a month of the proleptic Gregorian calendar. -/
def daysInMonth (y m : Nat) : Nat :=
  if m == 2 then (if leapYear y then 29 else 28)
  else if m == 4 || m == 6 || m == 9 || m == 11 then 30
  else 31

/-- `datetime.strptime(date_key, "%Y/%m/%d")` (tumblr_backup.py:583): at most
4/2/2 digits per component and a valid calendar date within `datetime`'s year
range; `none` models the `ValueError` Python raises otherwise. -/
def parseYMD (date_key : String) : Option (Nat × Nat × Nat) :=
  match splitChar '/' date_key with
  | [ys, ms, ds] =>
    if isDigits ys && decide (ys.length ≤ 4) && isDigits ms && decide (ms.length ≤ 2)
        && isDigits ds && decide (ds.length ≤ 2) then
      let y := strToNat ys
      let m := strToNat ms
      let d := strToNat ds
      if decide (1 ≤ y) && decide (1 ≤ m) && decide (m ≤ 12) && decide (1 ≤ d)
          && decide (d ≤ daysInMonth y m) then
        some (y, m, d)
      else none
    else none
  | _ => none

/-- Zero-pad a numeral to `k` characters, as `strftime` does. -/
def padZeros (k : Nat) (s : String) : String :=
  if s.length < k then String.mk (List.replicate (k - s.length) '0') ++ s else s

/-- `strftime` `%Y` field. -/
def pad4 (n : Nat) : String := padZeros 4 (toString n)

/-- `strftime` `%m` / `%d` fields. -/
def pad2 (n : Nat) : String := padZeros 2 (toString n)

/-- `date_obj.strftime('%Y-%m-%d')` (tumblr_backup.py:586). -/
def strftimeYMD (ymd : Nat × Nat × Nat) : String :=
  pad4 ymd.1 ++ "-" ++ pad2 ymd.2.1 ++ "-" ++ pad2 ymd.2.2

/-- The trailing-separator removal (tumblr_backup.py:604-606); the list it is
applied to always has at least two elements, matching the Python negative
indexing. -/
def stripTrailSep (dc : List String) : List String :=
  if dc.getLast? == some ("") && dc.dropLast.getLast? == some ("---") then
    dc.dropLast.dropLast
  else dc

/-- The file path `self.output_dir / year / month / f"{day}.md"` when
`date_key.split('/')` yields exactly three components
(tumblr_backup.py:561-568). -/
def dayFilePath (cfg : Config) (date_key : String) : Option String :=
  match splitChar '/' date_key with
  | [year, month, day] =>
    some (cfg.output_dir ++ "/" ++ year ++ "/" ++ month ++ "/" ++ day ++ ".md")
  | _ => none

/-- The day document `save_daily_posts` builds and writes
(tumblr_backup.py:582-610): date heading, blank line, then per post its
markdown, a blank line, a `---` rule and a blank line, with the trailing
separator pair removed. -/
def dayContent (cfg : Config) (tz : Int → Int) (r : String → String)
    (ymd : Nat × Nat × Nat) (posts : List Post) : String :=
  let dc := ["# " ++ strftimeYMD ymd, ""] ++
    posts.flatMap (fun p => [convert_to_markdown cfg tz r p true, "", "---", ""])
  joinWith ("\n") (stripTrailSep dc)

/-- The ordered side effects of a non-skipped `save_daily_posts` run: for each
post, in order, its attachment downloads and then (when `delete_after_backup`)
its deletion — all during document assembly — and finally the single file
write. -/
def dayTrace (cfg : Config) (tz : Int → Int) (r : String → String) (d : String → Bool)
    (ymd : Nat × Nat × Nat) (filepath : String) (posts : List Post) : List Event :=
  (posts.flatMap (fun p =>
    ((convertLines cfg tz r p true).calls.map Event.resolveCall) ++
    (if cfg.delete_after_backup then
      [Event.deleteCall (postId p) (delete_post cfg d (postId p))]
     else [])))
  ++ [Event.fileWrite filepath (dayContent cfg tz r ymd posts)]

/-- `TumblrBackup.save_daily_posts` (tumblr_backup.py:552-610) over the
explicit filesystem `fs`, returning the event trace and the new filesystem;
`none` models the exceptions Python raises on a malformed `date_key`. The
existence check and skip happen before `strptime`, as in the source. -/
def save_daily_posts (cfg : Config) (tz : Int → Int) (r : String → String)
    (d : String → Bool) (fs : List (String × String)) (date_key : String)
    (posts : List Post) : Option (List Event × List (String × String)) :=
  match dayFilePath cfg date_key with
  | none => none
  | some filepath =>
    let skip : Bool :=
      match fs.lookup filepath with
      | some c => decide (10 < c.length)
      | none => false
    if skip then some ([], fs)
    else
      match parseYMD date_key with
      | none => none
      | some ymd =>
        some (dayTrace cfg tz r d ymd filepath posts,
              (filepath, dayContent cfg tz r ymd posts) :: fs)

/-- Modelled from the spec's wording only, for the claims phrased about a
url's *host* (the source has no such notion): the authority component — the
text after `"://"` (or the string start) up to the first `/`, `?` or `#`. -/
def specHost (url : String) : String :=
  let afterScheme : List Char :=
    match url.toList.dropWhile (fun c => c ≠ ':') with
    | ':' :: '/' :: '/' :: more => more
    | _ => url.toList
  String.mk (afterScheme.takeWhile
    (fun c => !(c == '/' || c == '?' || c == '#')))

/-- Whether every NPF block branch guard of a block holds, i.e. the block
contributes at least its one content line (text blocks always split into at
least one line). -/
def producedOutput : Block → Bool
  | .text txt _ => txt != ""
  | .image media =>
    match media.head? with
    | some u => u != ""
    | none => false
  | .video u => u != ""
  | .audio u => u != ""
  | .link u _ => u != ""
  | .other => false

/-- Pair each element of a block list with whether it is the last element,
mirroring the `i < len(blocks) - 1` test of the renderer loop. -/
def withLast : List Block → List (Block × Bool)
  | [] => []
  | [b] => [(b, true)]
  | b :: b2 :: rest => (b, false) :: withLast (b2 :: rest)

/-- The post ids passed to `delete_post`, in trace order. -/
def deleteIds (t : List Event) : List String :=
  t.filterMap (fun e =>
    match e with
    | .deleteCall i _ => some i
    | _ => none)

/-- Whether an event is a `delete_post` invocation. -/
def isDeleteEvent : Event → Bool
  | .deleteCall _ _ => true
  | _ => false

/-- Whether an event is a file write. -/
def isWriteEvent : Event → Bool
  | .fileWrite _ _ => true
  | _ => false

/-- Whether every deletion in a trace happens strictly after every file
write, the ordering the spec asserts for `writeDay`. -/
def deletesOnlyAfterWriteB (t : List Event) : Bool :=
  t.enum.all (fun pe =>
    !isDeleteEvent pe.2 ||
    t.enum.all (fun qe => !isWriteEvent qe.2 || decide (qe.1 < pe.1)))

/-- The acceptance domain of `datetime.fromtimestamp(timestamp, tz=self.tz)`
(tumblr_backup.py:355): the conversion builds the UTC datetime of the instant
and then applies the timezone offset, and raises `ValueError`/`OverflowError`
unless both resulting datetimes have a year within
`datetime.MINYEAR..MAXYEAR` (1..9999). In epoch seconds that window is
`[-62135596800, 253402300800)` — `0001-01-01T00:00:00` up to the end of
`9999-12-31` — required of the instant itself and of the offset instant. -/
def fromtimestampOk (tz : Int → Int) (timestamp : Int) : Bool :=
  decide ((-62135596800 : Int) ≤ timestamp) && decide (timestamp < 253402300800)
    && decide ((-62135596800 : Int) ≤ timestamp + tz timestamp)
    && decide (timestamp + tz timestamp < 253402300800)

/-- `convert_to_markdown` with its one failure mode made explicit: the
`datetime.fromtimestamp` call at the top of the function
(tumblr_backup.py:354-355) runs before any output is produced, for every post
and whatever `include_timestamp_heading` is, and raises on an out-of-range
timestamp; `none` models that exception escaping, and `some` the rendering on
the accepted domain, where the total `convertLines` embeds the function. -/
def convertResult (cfg : Config) (tz : Int → Int) (r : String → String)
    (p : Post) (include_timestamp_heading : Bool) : Option RenderOut :=
  if fromtimestampOk tz p.timestamp then
    some (convertLines cfg tz r p include_timestamp_heading)
  else none

end TB

namespace TB

@[simp] theorem append_lines (a b : RenderOut) : (a.append b).lines = a.lines ++ b.lines := rfl

@[simp] theorem append_calls (a b : RenderOut) : (a.append b).calls = a.calls ++ b.calls := rfl

@[simp] theorem append_yt (a b : RenderOut) : (a.append b).yt = a.yt ++ b.yt := rfl

@[simp] theorem empty_lines : RenderOut.empty.lines = [] := rfl

@[simp] theorem empty_calls : RenderOut.empty.calls = [] := rfl

@[simp] theorem empty_yt : RenderOut.empty.yt = [] := rfl

@[simp] theorem quoteMark_zero : quoteMark 0 = "" := rfl

theorem quoteMark_eq_replicate (q : Nat) : quoteMark q = String.mk (List.replicate q '>') := by
  unfold quoteMark
  split
  · rfl
  · next h =>
    have hq : q = 0 := by omega
    subst hq
    rfl

theorem rstrip_replicate_gt (q : Nat) :
    rstripStr (String.mk (List.replicate q '>')) = String.mk (List.replicate q '>') := by
  unfold rstripStr
  cases q with
  | zero => rfl
  | succ n =>
    show String.mk (((List.replicate (n + 1) '>').reverse.dropWhile Char.isWhitespace).reverse) = _
    rw [List.reverse_replicate, List.replicate_succ, List.dropWhile_cons]
    rw [show Char.isWhitespace '>' = false from rfl]
    simp [← List.replicate_succ, List.reverse_replicate]

theorem quoteMark_ne_empty (q : Nat) (h : 0 < q) : quoteMark q ≠ "" := by
  rw [quoteMark_eq_replicate]
  intro hc
  have := congrArg String.toList hc
  cases q with
  | zero => omega
  | succ n => simp [List.replicate_succ, String.toList] at this

theorem sepLine_eq_quoteMark (q : Nat) : sepLine q = quoteMark q := by
  unfold sepLine
  cases q with
  | zero => simp
  | succ n =>
    rw [if_pos (quoteMark_ne_empty (n + 1) (Nat.succ_pos n))]
    rw [quoteMark_eq_replicate, rstrip_replicate_gt, ← quoteMark_eq_replicate]

@[simp] theorem sepIf_true (q : Nat) : sepIf q true = [] := rfl

@[simp] theorem sepIf_false (q : Nat) : sepIf q false = [sepLine q] := rfl

theorem map_quoteMark_zero (l : List String) : l.map (fun s => quoteMark 0 ++ s) = l := by
  simp [quoteMark_zero, String.empty_append]

theorem blockOut_not_produced (cfg : Config) (r : String → String) (q : Nat) (il : Bool)
    (b : Block) (h : producedOutput b = false) :
    blockOut cfg r q il b = RenderOut.empty := by
  cases b with
  | text txt subtype =>
    simp [producedOutput] at h
    simp [blockOut, h]
  | image media =>
    cases media with
    | nil => simp [blockOut]
    | cons u rest =>
      simp [producedOutput] at h
      simp [blockOut, h]
  | video u =>
    simp [producedOutput] at h
    simp [blockOut, h]
  | audio u =>
    simp [producedOutput] at h
    simp [blockOut, h]
  | link u title =>
    simp [producedOutput] at h
    simp [blockOut, h]
  | other => rfl

theorem blockOut_lines_decomp (cfg : Config) (r : String → String) (q : Nat) (il : Bool)
    (b : Block) :
    (blockOut cfg r q il b).lines
      = ((blockOut cfg r 0 true b).lines).map (fun l => quoteMark q ++ l)
        ++ (if il = false ∧ producedOutput b = true then [quoteMark q] else []) := by
  by_cases hp : producedOutput b = true
  case neg =>
    have h0 : producedOutput b = false := by
      revert hp; cases producedOutput b <;> simp
    rw [blockOut_not_produced cfg r q il b h0, blockOut_not_produced cfg r 0 true b h0]
    simp [h0]
  case pos =>
    cases b with
    | text txt subtype =>
      have ht : txt ≠ "" := by simpa [producedOutput] using hp
      cases il <;>
        simp [blockOut, ht, hp, sepLine_eq_quoteMark, List.map_map, Function.comp,
          quoteMark_zero, String.empty_append]
    | image media =>
      cases media with
      | nil => simp [producedOutput] at hp
      | cons u rest =>
        have hu : u ≠ "" := by simpa [producedOutput] using hp
        by_cases hd : cfg.download_images = true <;>
          cases il <;>
            simp [blockOut, hu, hp, hd, sepLine_eq_quoteMark, quoteMark_zero,
              String.empty_append, String.append_assoc]
    | video u =>
      have hu : u ≠ "" := by simpa [producedOutput] using hp
      by_cases hd : (cfg.download_videos && !is_external_attachments u ("video")) = true <;>
        cases il <;>
          simp [blockOut, hu, hp, hd, sepLine_eq_quoteMark, quoteMark_zero,
            String.empty_append, String.append_assoc]
    | audio u =>
      have hu : u ≠ "" := by simpa [producedOutput] using hp
      by_cases hd : (cfg.download_audio && !is_external_attachments u ("audio")) = true <;>
        cases il <;>
          simp [blockOut, hu, hp, hd, sepLine_eq_quoteMark, quoteMark_zero,
            String.empty_append, String.append_assoc]
    | link u title =>
      have hu : u ≠ "" := by simpa [producedOutput] using hp
      cases il <;>
        simp [blockOut, hu, hp, sepLine_eq_quoteMark, quoteMark_zero, String.empty_append,
          String.append_assoc]
    | other => simp [producedOutput] at hp

theorem blockOut_calls_il (cfg : Config) (r : String → String) (q : Nat) (il : Bool)
    (b : Block) : (blockOut cfg r q il b).calls = (blockOut cfg r q true b).calls := by
  cases b with
  | text txt subtype => by_cases ht : txt = "" <;> simp [blockOut, ht]
  | image media =>
    cases media with
    | nil => rfl
    | cons u rest =>
      by_cases hu : u = "" <;> by_cases hd : cfg.download_images = true <;>
        simp [blockOut, hu, hd]
  | video u =>
    by_cases hu : u = "" <;>
      by_cases hd : (cfg.download_videos && !is_external_attachments u ("video")) = true <;>
        simp [blockOut, hu, hd]
  | audio u =>
    by_cases hu : u = "" <;>
      by_cases hd : (cfg.download_audio && !is_external_attachments u ("audio")) = true <;>
        simp [blockOut, hu, hd]
  | link u title => by_cases hu : u = "" <;> simp [blockOut, hu]
  | other => rfl

theorem blockOut_yt_il (cfg : Config) (r : String → String) (q : Nat) (il : Bool)
    (b : Block) : (blockOut cfg r q il b).yt = (blockOut cfg r q true b).yt := by
  cases b with
  | text txt subtype => by_cases ht : txt = "" <;> simp [blockOut, ht]
  | image media =>
    cases media with
    | nil => rfl
    | cons u rest =>
      by_cases hu : u = "" <;> by_cases hd : cfg.download_images = true <;>
        simp [blockOut, hu, hd]
  | video u =>
    by_cases hu : u = "" <;>
      by_cases hd : (cfg.download_videos && !is_external_attachments u ("video")) = true <;>
        simp [blockOut, hu, hd]
  | audio u =>
    by_cases hu : u = "" <;>
      by_cases hd : (cfg.download_audio && !is_external_attachments u ("audio")) = true <;>
        simp [blockOut, hu, hd]
  | link u title => by_cases hu : u = "" <;> simp [blockOut, hu]
  | other => rfl

theorem processBlocks_lines_withLast (cfg : Config) (r : String → String) (q : Nat) :
    ∀ blocks : List Block,
    (processBlocks cfg r blocks q).lines
      = (withLast blocks).flatMap (fun bl =>
          ((blockOut cfg r 0 true bl.1).lines).map (fun l => quoteMark q ++ l)
          ++ (if bl.2 = false ∧ producedOutput bl.1 = true then [quoteMark q] else []))
  | [] => by simp [processBlocks, withLast]
  | [b] => by
    simpa [processBlocks, withLast] using blockOut_lines_decomp cfg r q true b
  | b :: b2 :: rest => by
    have ih := processBlocks_lines_withLast cfg r q (b2 :: rest)
    simp only [processBlocks, withLast, List.flatMap_cons, append_lines]
    rw [ih, blockOut_lines_decomp cfg r q false b]
    simp

theorem processBlocks_calls_flat (cfg : Config) (r : String → String) :
    ∀ (blocks : List Block) (q : Nat),
    (processBlocks cfg r blocks q).calls
      = blocks.flatMap (fun b => (blockOut cfg r q true b).calls)
  | [], _ => by simp [processBlocks]
  | [b], q => by simp [processBlocks]
  | b :: b2 :: rest, q => by
    have ih := processBlocks_calls_flat cfg r (b2 :: rest) q
    simp only [processBlocks, append_calls]
    rw [ih, blockOut_calls_il cfg r q false b]
    simp [List.flatMap_cons]

theorem processBlocks_yt_flat (cfg : Config) (r : String → String) :
    ∀ (blocks : List Block) (q : Nat),
    (processBlocks cfg r blocks q).yt
      = blocks.flatMap (fun b => (blockOut cfg r q true b).yt)
  | [], _ => by simp [processBlocks]
  | [b], q => by simp [processBlocks]
  | b :: b2 :: rest, q => by
    have ih := processBlocks_yt_flat cfg r (b2 :: rest) q
    simp only [processBlocks, append_yt]
    rw [ih, blockOut_yt_il cfg r q false b]
    simp [List.flatMap_cons]

end TB

namespace TB

/-- C7: for every text content block with non-empty body and every quote
level, the subtype transform (heading1 `# `, heading2 `## `, quote `> `,
indented two spaces, chat bold markers) is applied to the whole text value,
and only then is the transformed value split on newlines, each resulting
line prefixed by the quote-level marker (`q` repetitions of `>`). -/
theorem claim_C7_text_transform (cfg : Config) (r : String → String) (q : Nat) (il : Bool)
    (txt subtype : String) (h : txt ≠ "") :
    (blockOut cfg r q il (Block.text txt subtype)).lines
      = ((splitChar '\n' (subtypeTransform subtype txt)).map (fun l => quoteMark q ++ l))
        ++ sepIf q il
    ∧ subtypeTransform ("heading1") txt = "# " ++ txt
    ∧ subtypeTransform ("heading2") txt = "## " ++ txt
    ∧ subtypeTransform ("quote") txt = "> " ++ txt
    ∧ subtypeTransform ("indented") txt = "  " ++ txt
    ∧ subtypeTransform ("chat") txt = "**" ++ txt ++ "**"
    ∧ quoteMark q = String.mk (List.replicate q '>') :=
  ⟨by simp [blockOut, h], rfl, rfl, rfl, rfl, rfl, quoteMark_eq_replicate q⟩

/-- Witness for C7 at a concrete multi-line quote-subtype block. -/
theorem claim_C7_witness :
    ("x\ny" : String) ≠ "" ∧
    (blockOut ({} : Config) (fun u => u) 2 false (Block.text ("x\ny") ("quote"))).lines
      = ((splitChar '\n' (subtypeTransform ("quote") ("x\ny"))).map (fun l => quoteMark 2 ++ l))
        ++ sepIf 2 false :=
  ⟨by decide,
   (claim_C7_text_transform ({} : Config) (fun u => u) 2 false ("x\ny") ("quote")
     (by decide)).1⟩

/-- C8: `process_npf_content_blocks` emits the blocks' lines in block order;
between consecutive blocks exactly one separator line appears, precisely when
the emitting block is not positionally last and its branch guard produced
output; every line, separators included, carries the quote-level `>` marker
(none at level 0), and a block that produces no output contributes nothing. -/
theorem claim_C8_block_sequencing (cfg : Config) (r : String → String) (q : Nat)
    (blocks : List Block) :
    ((processBlocks cfg r blocks q).lines
      = (withLast blocks).flatMap (fun bl =>
          ((blockOut cfg r 0 true bl.1).lines).map (fun l => quoteMark q ++ l)
          ++ (if bl.2 = false ∧ producedOutput bl.1 = true then [quoteMark q] else [])))
    ∧ quoteMark 0 = ""
    ∧ (∀ q', sepLine q' = quoteMark q')
    ∧ (∀ q' il b, producedOutput b = false → blockOut cfg r q' il b = RenderOut.empty) :=
  ⟨processBlocks_lines_withLast cfg r q blocks, rfl,
   fun q' => sepLine_eq_quoteMark q',
   fun q' il b h => blockOut_not_produced cfg r q' il b h⟩

/-- C3 (amended): for a video block with non-empty url, the resolver is
invoked iff `download_videos` is set and no member of
`{youtube.com, youtu.be, vimeo.com, instagram.com}` occurs as a substring of
the lowercased url (the source tests substrings of the whole url, not the
host); the resolver's path, otherwise the raw url, is embedded as the video
link, and resolver calls of a block sequence are exactly the per-block calls. -/
theorem claim_C3_video_resolver (cfg : Config) (r : String → String) (q : Nat) (il : Bool)
    (u : String) (h : u ≠ "") :
    ((blockOut cfg r q il (Block.video u)).calls
      = if cfg.download_videos && !is_external_attachments u ("video") then [u] else [])
    ∧ ((blockOut cfg r q il (Block.video u)).lines
      = (if cfg.download_videos && !is_external_attachments u ("video")
          then [quoteMark q ++ ("[Video](" ++ (r u ++ ")"))]
          else [quoteMark q ++ ("[Video](" ++ (u ++ ")"))]) ++ sepIf q il)
    ∧ (is_external_attachments u ("video")
      = (["youtube.com", "youtu.be", "vimeo.com", "instagram.com"]).any
          (fun domain => strContains (lowerStr u) domain))
    ∧ (∀ (blocks : List Block) (q' : Nat),
        (processBlocks cfg r blocks q').calls
          = blocks.flatMap (fun b => (blockOut cfg r q' true b).calls)) := by
  refine ⟨?_, ?_, rfl, fun blocks q' => processBlocks_calls_flat cfg r blocks q'⟩
  · by_cases hd : (cfg.download_videos && !is_external_attachments u ("video")) = true <;>
      simp [blockOut, h, hd]
  · by_cases hd : (cfg.download_videos && !is_external_attachments u ("video")) = true <;>
      simp [blockOut, h, hd, String.append_assoc]

/-- Witness for C3 at a tumblr-hosted url with downloads enabled. -/
theorem claim_C3_witness :
    ("https://va.media.tumblr.com/x.mp4" : String) ≠ "" ∧
    (blockOut ({} : Config) (fun u => "Attachments/x.mp4") 0 true
        (Block.video ("https://va.media.tumblr.com/x.mp4"))).calls
      = ["https://va.media.tumblr.com/x.mp4"] :=
  ⟨by decide, by
    have h := claim_C3_video_resolver ({} : Config) (fun u => "Attachments/x.mp4") 0 true
      ("https://va.media.tumblr.com/x.mp4") (by decide)
    rw [h.1]
    decide⟩

/-- C3 is false as stated: for this url, whose host `cdn.example.com` is not
in the externally-hosted set, the spec requires a resolver call (with
`download_videos` on), but the code takes the external branch because
`youtube.com` occurs later in the url, performs no call and embeds the raw
url. -/
theorem claim_C3_counterexample :
    specHost ("https://cdn.example.com/v.mp4?from=youtube.com") = "cdn.example.com"
    ∧ ("cdn.example.com" ∉ (["youtube.com", "youtu.be", "vimeo.com", "instagram.com"] : List String))
    ∧ Config.download_videos ({} : Config) = true
    ∧ (blockOut ({} : Config) (fun u => "Attachments/v.mp4") 0 true
        (Block.video ("https://cdn.example.com/v.mp4?from=youtube.com"))).calls = []
    ∧ (blockOut ({} : Config) (fun u => "Attachments/v.mp4") 0 true
        (Block.video ("https://cdn.example.com/v.mp4?from=youtube.com"))).lines
      = ["[Video](https://cdn.example.com/v.mp4?from=youtube.com)"] :=
  ⟨by decide, by decide, rfl, by decide, by decide⟩

/-- C4 (amended): for a video block with non-empty url, the raw url is
appended to the playlist collection exactly once iff
`add_to_youtube_playlist` is set and `youtube.com` or `youtu.be` occurs as a
substring of the lowercased url (the source tests substrings, not the host);
the collection is unchanged by flipping `download_videos`, and the collected
urls of a block sequence are exactly the per-block collections. -/
theorem claim_C4_playlist_collection (cfg : Config) (r : String → String) (q : Nat) (il : Bool)
    (u : String) (h : u ≠ "") :
    ((blockOut cfg r q il (Block.video u)).yt
      = if cfg.add_to_youtube_playlist && is_youtube_url u then [u] else [])
    ∧ ((blockOut { cfg with download_videos := !cfg.download_videos } r q il (Block.video u)).yt
      = (blockOut cfg r q il (Block.video u)).yt)
    ∧ (is_youtube_url u
      = (strContains (lowerStr u) ("youtube.com") || strContains (lowerStr u) ("youtu.be")))
    ∧ (∀ (blocks : List Block) (q' : Nat),
        (processBlocks cfg r blocks q').yt
          = blocks.flatMap (fun b => (blockOut cfg r q' true b).yt)) := by
  have key : ∀ cfg' : Config,
      (blockOut cfg' r q il (Block.video u)).yt
        = if cfg'.add_to_youtube_playlist && is_youtube_url u then [u] else [] := by
    intro cfg'
    by_cases hd : (cfg'.download_videos && !is_external_attachments u ("video")) = true <;>
      simp [blockOut, h, hd]
  refine ⟨key cfg, ?_, rfl, fun blocks q' => processBlocks_yt_flat cfg r blocks q'⟩
  rw [key cfg, key { cfg with download_videos := !cfg.download_videos }]

/-- Witness for C4 at a youtu.be short-link url. -/
theorem claim_C4_witness :
    ("https://youtu.be/abc123XYZ9" : String) ≠ "" ∧
    (blockOut ({ add_to_youtube_playlist := true } : Config) (fun u => u) 0 true
        (Block.video ("https://youtu.be/abc123XYZ9"))).yt
      = ["https://youtu.be/abc123XYZ9"] :=
  ⟨by decide, by
    have h := claim_C4_playlist_collection ({ add_to_youtube_playlist := true } : Config)
      (fun u => u) 0 true ("https://youtu.be/abc123XYZ9") (by decide)
    rw [h.1]
    decide⟩

/-- C4 is false as stated: this url's host `example.com` matches neither
`youtube.com` nor `youtu.be`, so the spec requires that nothing be appended,
but the code appends the url because `youtu.be` occurs in its query string. -/
theorem claim_C4_counterexample :
    specHost ("https://example.com/watch?feed=youtu.be") = "example.com"
    ∧ ("example.com" ∉ (["youtube.com", "youtu.be"] : List String))
    ∧ (blockOut ({ add_to_youtube_playlist := true } : Config) (fun u => u) 0 true
        (Block.video ("https://example.com/watch?feed=youtu.be"))).yt
      = ["https://example.com/watch?feed=youtu.be"] :=
  ⟨by decide, by decide, by decide⟩

end TB

namespace TB

theorem flatMap_map_eq {α β γ : Type} (f : α → β) (g : β → List γ) (l : List α) :
    (l.map f).flatMap g = l.flatMap (fun x => g (f x)) := by
  induction l with
  | nil => rfl
  | cons a rest ih => simp [ih]

theorem foldr_append_lines (outs : List RenderOut) :
    (outs.foldr RenderOut.append RenderOut.empty).lines
      = outs.flatMap (fun o => o.lines) := by
  induction outs with
  | nil => rfl
  | cons o rest ih => simp [ih]

theorem foldr_append_calls (outs : List RenderOut) :
    (outs.foldr RenderOut.append RenderOut.empty).calls
      = outs.flatMap (fun o => o.calls) := by
  induction outs with
  | nil => rfl
  | cons o rest ih => simp [ih]

theorem foldr_append_yt (outs : List RenderOut) :
    (outs.foldr RenderOut.append RenderOut.empty).yt
      = outs.flatMap (fun o => o.yt) := by
  induction outs with
  | nil => rfl
  | cons o rest ih => simp [ih]

theorem trailEntryOut_lines (cfg : Config) (r : String → String) (e : TrailEntry) :
    (trailEntryOut cfg r e).lines
      = (e.blog_name ++ ":") ::
          (if e.content ≠ [] then (processBlocks cfg r e.content 1).lines ++ [""] else []) := by
  by_cases hc : e.content = [] <;> simp [trailEntryOut, hc]

theorem processBlocks_lines_map (cfg : Config) (r : String → String) :
    ∀ (blocks : List Block) (q : Nat),
    (processBlocks cfg r blocks q).lines
      = ((processBlocks cfg r blocks 0).lines).map (fun l => quoteMark q ++ l)
  | [], _ => rfl
  | [b], q => by
    simp only [processBlocks]
    rw [blockOut_lines_decomp cfg r q true b]
    simp
  | b :: b2 :: rest, q => by
    have ih := processBlocks_lines_map cfg r (b2 :: rest) q
    simp only [processBlocks, append_lines]
    rw [ih, blockOut_lines_decomp cfg r q false b, blockOut_lines_decomp cfg r 0 false b]
    by_cases hpo : producedOutput b = true <;>
      simp [hpo, String.append_empty, List.map_map, Function.comp, quoteMark_zero,
        String.empty_append]

/-- C5 (amended): rendering never raises on any post record whose timestamp
`datetime.fromtimestamp` accepts (UTC and local instants within years
1..9999) — on that domain `convertResult` returns a document, the total
`convertLines` — and, in particular, for every such post with empty trail,
empty content blocks and a type outside the six legacy types, the document is
exactly the heading and tags lines, with no resolver call and no playlist
append. -/
theorem claim_C5_total_in_range (cfg : Config) (tz : Int → Int) (r : String → String)
    (p : Post) (inc : Bool) (h0 : fromtimestampOk tz p.timestamp = true) :
    convertResult cfg tz r p inc = some (convertLines cfg tz r p inc)
    ∧ (p.trail = [] → p.content = [] →
        p.type ∉ (["text", "photo", "quote", "link", "video", "audio"] : List String) →
        (convertLines cfg tz r p inc).lines
          = (if inc then ["## " ++ strftimeHM tz p.timestamp, ""] else [])
            ++ (if p.tags ≠ [] then
                  ["Tags: " ++ joinWith (", ") (p.tags.map (fun t => "`" ++ t ++ "`")), ""]
                else [])
        ∧ (convertLines cfg tz r p inc).calls = []
        ∧ (convertLines cfg tz r p inc).yt = []) := by
  refine ⟨by simp [convertResult, h0], fun h1 h2 h3 => ?_⟩
  have hmem : p.type ≠ "text" ∧ p.type ≠ "photo" ∧ p.type ≠ "quote" ∧ p.type ≠ "link"
      ∧ p.type ≠ "video" ∧ p.type ≠ "audio" := by
    simpa [not_or] using h3
  obtain ⟨t1, t2, t3, t4, t5, t6⟩ := hmem
  have hleg : legacyLines cfg r p = RenderOut.empty := by
    simp [legacyLines, t1, t2, t3, t4, t5, t6]
  refine ⟨?_, ?_, ?_⟩ <;> simp [convertLines, h1, h2, hleg]

/-- Witness for C5 at the all-defaults post (timestamp 0, type `unknown`)
under a zero-offset timezone. -/
theorem claim_C5_witness :
    convertResult ({} : Config) (fun _ => 0) (fun u => u) ({} : Post) true
      = some (convertLines ({} : Config) (fun _ => 0) (fun u => u) ({} : Post) true)
    ∧ (convertLines ({} : Config) (fun _ => 0) (fun u => u) ({} : Post) true).lines
      = ["## 00:00", ""] := by
  have h := claim_C5_total_in_range ({} : Config) (fun _ => 0) (fun u => u) ({} : Post) true
    (by decide)
  exact ⟨h.1, ((h.2 rfl rfl (by decide)).1).trans (by decide)⟩

/-- C5 is false as stated: for the well-typed post record whose timestamp is
`2 ^ 40` seconds (every other field at its default), `datetime.fromtimestamp`
raises before any rendering happens — the year exceeds 9999 — so rendering
does not return a document; the offset used is Sydney standard time
(+36000 s). -/
theorem claim_C5_counterexample :
    convertResult ({} : Config) (fun _ => 36000) (fun u => u)
        ({ timestamp := 1099511627776 } : Post) true = none
    ∧ fromtimestampOk (fun _ => 36000) 1099511627776 = false
    ∧ (1099511627776 : Int) = 2 ^ 40 :=
  ⟨by decide, by decide, by norm_num⟩

/-- C6 (amended): a post's trail entries are rendered in original array
order; each entry contributes its `<blog_name>:` line and then — only when
its content block list is non-empty — its blocks at quote level 1 followed by
one blank line (an entry with an empty content list contributes only the name
line); level-1 rendering prefixes every line of the level-0 rendering with
exactly one `>`, independently of the entry's position. -/
theorem claim_C6_trail_order (cfg : Config) (tz : Int → Int) (r : String → String)
    (p : Post) (inc : Bool) (h : p.trail ≠ []) :
    ((convertLines cfg tz r p inc).lines
      = (if inc then ["## " ++ strftimeHM tz p.timestamp, ""] else [])
        ++ (if p.tags ≠ [] then
              ["Tags: " ++ joinWith (", ") (p.tags.map (fun t => "`" ++ t ++ "`")), ""]
            else [])
        ++ (p.trail.flatMap (fun e =>
            (e.blog_name ++ ":") ::
              (if e.content ≠ [] then (processBlocks cfg r e.content 1).lines ++ [""] else [])))
        ++ (if p.content ≠ [] then (processBlocks cfg r p.content 0).lines else []))
    ∧ (∀ bs : List Block, (processBlocks cfg r bs 1).lines
        = ((processBlocks cfg r bs 0).lines).map (fun l => ">" ++ l)) := by
  constructor
  · have hleg : ¬ (p.trail = [] ∧ p.content = []) := fun hc => h hc.1
    by_cases hc : p.content = [] <;>
      simp [convertLines, hleg, h, foldr_append_lines, flatMap_map_eq, trailEntryOut_lines,
        hc, List.append_assoc]
  · intro bs
    rw [processBlocks_lines_map cfg r bs 1]
    simp only [show quoteMark 1 = ">" from rfl]

/-- Witness for C6 at a two-entry trail whose second entry has no blocks. -/
theorem claim_C6_witness :
    (convertLines ({} : Config) (fun _ => 0) (fun u => u)
        ({ trail := [{ blog_name := "a", content := [Block.text ("hi") ("")] },
                     { blog_name := "b", content := [] }] } : Post) false).lines
      = ["a:", ">hi", "", "b:"] := by
  have h := claim_C6_trail_order ({} : Config) (fun _ => 0) (fun u => u)
    ({ trail := [{ blog_name := "a", content := [Block.text ("hi") ("")] },
                 { blog_name := "b", content := [] }] } : Post) false (by decide)
  exact h.1.trans (by decide)

/-- C6 is false as stated: a trail entry with an empty content block list
contributes only its `<blog_name>:` line, with no blank line after it, while
the claim predicts a trailing blank line for every entry. -/
theorem claim_C6_counterexample :
    (convertLines ({} : Config) (fun _ => 0) (fun u => u)
        ({ trail := [{ blog_name := "a", content := [] }] } : Post) false).lines = ["a:"]
    ∧ ("a:" :: ((processBlocks ({} : Config) (fun u => u) ([] : List Block) 1).lines ++ [""]))
      = ["a:", ""]
    ∧ (["a:"] : List String) ≠ ["a:", ""] :=
  ⟨by decide, by decide, by decide⟩

end TB

namespace TB

/-- C9: the worked example — a post with tags `a`, `b` and one text block
`hello`, rendered with the timestamp heading at a local time-of-day of 14:05,
yields exactly the five lines `## 14:05`, blank, the back-tick-quoted tags
line, blank, `hello`. -/
theorem claim_C9_worked_example (cfg : Config) (tz : Int → Int) (r : String → String)
    (T : Int)
    (hh : ((T + tz T) % 86400).toNat / 3600 = 14)
    (hm : (((T + tz T) % 86400).toNat % 3600) / 60 = 5) :
    (convertLines cfg tz r
        ({ timestamp := T, tags := ["a", "b"],
           content := [Block.text ("hello") ("")] } : Post) true).lines
      = ["## 14:05", "", "Tags: `a`, `b`", "", "hello"]
    ∧ convert_to_markdown cfg tz r
        ({ timestamp := T, tags := ["a", "b"],
           content := [Block.text ("hello") ("")] } : Post) true
      = "## 14:05\n\nTags: `a`, `b`\n\nhello" := by
  have hstr : strftimeHM tz T = "14:05" := by
    simp only [strftimeHM]
    rw [hh, hm]
    decide
  have hl : (convertLines cfg tz r
      ({ timestamp := T, tags := ["a", "b"],
         content := [Block.text ("hello") ("")] } : Post) true).lines
      = ["## 14:05", "", "Tags: `a`, `b`", "", "hello"] := by
    simp [convertLines, processBlocks, blockOut, subtypeTransform, sepIf, quoteMark_zero,
      String.empty_append, joinWith, hstr, legacyLines, splitChar, splitCharAux]
  refine ⟨hl, ?_⟩
  simp only [convert_to_markdown, hl]
  rfl

/-- Witness for C9 at epoch second 50700 under a zero-offset timezone. -/
theorem claim_C9_witness :
    (convertLines ({} : Config) (fun _ => 0) (fun u => u)
        ({ timestamp := 50700, tags := ["a", "b"],
           content := [Block.text ("hello") ("")] } : Post) true).lines
      = ["## 14:05", "", "Tags: `a`, `b`", "", "hello"] :=
  (claim_C9_worked_example ({} : Config) (fun _ => 0) (fun u => u) 50700
    (by decide) (by decide)).1

/-- C10: in the legacy audio fallback (empty trail and content blocks, type
`audio`), an empty `audio_url` together with a present `audio_source_url`
makes the latter the effective audio url, subject to exactly the structured
audio block's download-versus-embed branching (same embed line, same resolver
calls), followed by the fallback path's extra blank line. -/
theorem claim_C10_audio_source_fallback (cfg : Config) (tz : Int → Int)
    (r : String → String) (p : Post) (inc : Bool) (u : String)
    (h1 : p.type = "audio") (h2 : p.trail = []) (h3 : p.content = [])
    (h4 : p.audio_url = "") (h5 : p.audio_source_url = some u) :
    ((convertLines cfg tz r p inc).lines
      = (if inc then ["## " ++ strftimeHM tz p.timestamp, ""] else [])
        ++ (if p.tags ≠ [] then
              ["Tags: " ++ joinWith (", ") (p.tags.map (fun t => "`" ++ t ++ "`")), ""]
            else [])
        ++ ((if p.artist ≠ "" ∨ p.track_name ≠ "" then
              ["## " ++ p.artist ++ " - " ++ p.track_name, ""] else [])
          ++ (if p.caption ≠ "" then [p.caption, ""] else []))
        ++ ((blockOut cfg r 0 true (Block.audio u)).lines
          ++ (if u ≠ "" then [""] else [])))
    ∧ (convertLines cfg tz r p inc).calls
      = (blockOut cfg r 0 true (Block.audio u)).calls := by
  have e1 : (("audio" : String) == "text") = false := rfl
  have e2 : (("audio" : String) == "photo") = false := rfl
  have e3 : (("audio" : String) == "quote") = false := rfl
  have e4 : (("audio" : String) == "link") = false := rfl
  have e5 : (("audio" : String) == "video") = false := rfl
  have e6 : (("audio" : String) == "audio") = true := rfl
  constructor <;>
    (by_cases hu : u = "" <;>
      by_cases hd : (cfg.download_audio && !is_external_attachments u ("audio")) = true <;>
        simp [convertLines, legacyLines, blockOut, h1, h2, h3, h4, h5, hu, hd,
          e1, e2, e3, e4, e5, e6, sepIf, quoteMark_zero, String.empty_append,
          List.append_assoc])

/-- Witness for C10 at a tumblr-hosted audio source url. -/
theorem claim_C10_witness :
    (convertLines ({} : Config) (fun _ => 0) (fun u => u)
        ({ type := "audio", audio_source_url := some ("https://a.tumblr.com/t.mp3") } : Post)
        false).calls
      = ["https://a.tumblr.com/t.mp3"] := by
  have h := claim_C10_audio_source_fallback ({} : Config) (fun _ => 0) (fun u => u)
    ({ type := "audio", audio_source_url := some ("https://a.tumblr.com/t.mp3") } : Post)
    false ("https://a.tumblr.com/t.mp3") rfl rfl rfl rfl rfl
  exact h.2.trans (by decide)

end TB

namespace TB

@[simp] theorem length_mk (l : List Char) : (String.mk l).length = l.length := rfl

theorem padZeros_length (k : Nat) (s : String) : k ≤ (padZeros k s).length := by
  unfold padZeros
  split
  · next h =>
    rw [String.length_append, length_mk, List.length_replicate]
    omega
  · next h => omega

theorem strftimeYMD_length (ymd : Nat × Nat × Nat) : 10 ≤ (strftimeYMD ymd).length := by
  unfold strftimeYMD pad4 pad2
  have h1 := padZeros_length 4 (toString ymd.1)
  have h2 := padZeros_length 2 (toString ymd.2.1)
  have h3 := padZeros_length 2 (toString ymd.2.2)
  have hdash : ("-" : String).length = 1 := rfl
  rw [String.length_append, String.length_append, String.length_append,
    String.length_append, hdash]
  omega

theorem joinWith_head_le (sep h : String) (t : List String) :
    h.length ≤ (joinWith sep (h :: t)).length := by
  cases t with
  | nil => simp [joinWith]
  | cons x rest =>
    show h.length ≤ (h ++ sep ++ joinWith sep (x :: rest)).length
    rw [String.length_append, String.length_append]
    omega

theorem stripTrailSep_cons (h : String) (t : List String) (hne : h ≠ "---") :
    ∃ t', stripTrailSep (h :: t) = h :: t' := by
  unfold stripTrailSep
  split
  · next hcond =>
    rw [Bool.and_eq_true] at hcond
    obtain ⟨hc1, hc2⟩ := hcond
    rw [beq_iff_eq] at hc1 hc2
    cases t with
    | nil => simp at hc2
    | cons x t2 =>
      cases hdl : (x :: t2).dropLast with
      | nil =>
        exfalso
        rw [show (h :: x :: t2).dropLast = h :: (x :: t2).dropLast from rfl, hdl] at hc2
        simp at hc2
        exact hne hc2
      | cons y l2 =>
        refine ⟨(y :: l2).dropLast, ?_⟩
        rw [show (h :: x :: t2).dropLast = h :: (x :: t2).dropLast from rfl, hdl]
        rfl
  · exact ⟨t, rfl⟩

theorem heading_ne_rule (ymd : Nat × Nat × Nat) : ("# " ++ strftimeYMD ymd) ≠ "---" := by
  intro hc
  have hlen := congrArg String.length hc
  rw [String.length_append] at hlen
  have h10 := strftimeYMD_length ymd
  have h2 : ("# " : String).length = 2 := rfl
  have h3 : ("---" : String).length = 3 := rfl
  omega

theorem dayContent_length (cfg : Config) (tz : Int → Int) (r : String → String)
    (ymd : Nat × Nat × Nat) (posts : List Post) :
    10 < (dayContent cfg tz r ymd posts).length := by
  unfold dayContent
  simp only [List.cons_append, List.nil_append]
  obtain ⟨t', ht⟩ := stripTrailSep_cons ("# " ++ strftimeYMD ymd)
    ("" :: posts.flatMap (fun p => [convert_to_markdown cfg tz r p true, "", "---", ""]))
    (heading_ne_rule ymd)
  rw [ht]
  have hj := joinWith_head_le ("\n") ("# " ++ strftimeYMD ymd) t'
  have h10 := strftimeYMD_length ymd
  have h2 : ("# " : String).length = 2 := rfl
  rw [String.length_append] at hj
  omega

theorem deleteIds_append (a b : List Event) :
    deleteIds (a ++ b) = deleteIds a ++ deleteIds b := by
  simp [deleteIds, List.filterMap_append]

theorem deleteIds_resolve_map (l : List String) :
    deleteIds (l.map Event.resolveCall) = [] := by
  induction l with
  | nil => rfl
  | cons a l2 ih => simp [deleteIds, List.filterMap_cons]

theorem deleteIds_flat (cfg : Config) (tz : Int → Int) (r : String → String)
    (d : String → Bool) :
    ∀ posts : List Post,
    deleteIds (posts.flatMap (fun p =>
      ((convertLines cfg tz r p true).calls.map Event.resolveCall) ++
      [Event.deleteCall (postId p) (delete_post cfg d (postId p))]))
      = posts.map postId
  | [] => rfl
  | p :: ps => by
    have ih := deleteIds_flat cfg tz r d ps
    simp only [List.flatMap_cons, List.append_assoc]
    rw [deleteIds_append, deleteIds_resolve_map, List.nil_append, deleteIds_append, ih]
    simp [deleteIds, List.filterMap_cons]

theorem deleteIds_dayTrace (cfg : Config) (tz : Int → Int) (r : String → String)
    (d : String → Bool) (ymd : Nat × Nat × Nat) (fp : String) (posts : List Post)
    (hdel : cfg.delete_after_backup = true) :
    deleteIds (dayTrace cfg tz r d ymd fp posts) = posts.map postId := by
  unfold dayTrace
  simp only [hdel, if_true]
  rw [deleteIds_append, deleteIds_flat cfg tz r d posts]
  simp [deleteIds]

theorem dayTrace_getLast (cfg : Config) (tz : Int → Int) (r : String → String)
    (d : String → Bool) (ymd : Nat × Nat × Nat) (fp : String) (posts : List Post) :
    (dayTrace cfg tz r d ymd fp posts).getLast?
      = some (Event.fileWrite fp (dayContent cfg tz r ymd posts)) := by
  unfold dayTrace
  exact List.getLast?_concat _

theorem save_skip_path (cfg : Config) (tz : Int → Int) (r : String → String)
    (d : String → Bool) (fs : List (String × String)) (dk : String) (posts : List Post)
    (fp : String) (c : String)
    (hfp : dayFilePath cfg dk = some fp)
    (hlk : List.lookup fp fs = some c) (hlen : 10 < c.length) :
    save_daily_posts cfg tz r d fs dk posts = some ([], fs) := by
  simp only [save_daily_posts, hfp, hlk]
  simp [hlen]

theorem save_write_path (cfg : Config) (tz : Int → Int) (r : String → String)
    (d : String → Bool) (fs : List (String × String)) (dk : String) (posts : List Post)
    (fp : String) (ymd : Nat × Nat × Nat)
    (hfp : dayFilePath cfg dk = some fp)
    (hymd : parseYMD dk = some ymd)
    (hsmall : ∀ c, List.lookup fp fs = some c → c.length ≤ 10) :
    save_daily_posts cfg tz r d fs dk posts
      = some (dayTrace cfg tz r d ymd fp posts,
              (fp, dayContent cfg tz r ymd posts) :: fs) := by
  have hskip : (match List.lookup fp fs with
      | some c => decide (10 < c.length)
      | none => false) = false := by
    cases hlk : List.lookup fp fs with
    | none => rfl
    | some c =>
      have := hsmall c hlk
      simp
      omega
  simp only [save_daily_posts, hfp, hskip, hymd]
  simp

end TB

namespace TB

/-- C2: `save_daily_posts` is idempotent — when the day file exists with more
than 10 characters the call returns without any event (no write, no resolver
call, no deletion) and leaves the filesystem unchanged; otherwise the first
call writes a document whose length always exceeds 10 (it starts with the
`# YYYY-MM-DD` heading), so a second call with identical inputs performs zero
events and zero filesystem changes. -/
theorem claim_C2_idempotent (cfg : Config) (tz : Int → Int) (r : String → String)
    (d : String → Bool) (fs : List (String × String)) (dk : String) (posts : List Post)
    (fp : String) (ymd : Nat × Nat × Nat)
    (hfp : dayFilePath cfg dk = some fp)
    (hymd : parseYMD dk = some ymd) :
    (∀ c, List.lookup fp fs = some c → 10 < c.length →
        save_daily_posts cfg tz r d fs dk posts = some ([], fs))
    ∧ ((∀ c, List.lookup fp fs = some c → c.length ≤ 10) →
        save_daily_posts cfg tz r d fs dk posts
          = some (dayTrace cfg tz r d ymd fp posts,
                  (fp, dayContent cfg tz r ymd posts) :: fs)
        ∧ 10 < (dayContent cfg tz r ymd posts).length
        ∧ save_daily_posts cfg tz r d
            ((fp, dayContent cfg tz r ymd posts) :: fs) dk posts
            = some ([], (fp, dayContent cfg tz r ymd posts) :: fs)) := by
  constructor
  · intro c hlk hlen
    exact save_skip_path cfg tz r d fs dk posts fp c hfp hlk hlen
  · intro hsmall
    refine ⟨save_write_path cfg tz r d fs dk posts fp ymd hfp hymd hsmall,
            dayContent_length cfg tz r ymd posts, ?_⟩
    refine save_skip_path cfg tz r d _ dk posts fp (dayContent cfg tz r ymd posts) hfp
      ?_ (dayContent_length cfg tz r ymd posts)
    simp [List.lookup]

/-- Witness for C2: a first run on an empty filesystem writes the day file,
and the immediate second run is a no-op. -/
theorem claim_C2_witness :
    save_daily_posts ({} : Config) (fun _ => 0) (fun u => u) (fun _ => true) []
        ("2024/01/05") []
      = some (dayTrace ({} : Config) (fun _ => 0) (fun u => u) (fun _ => true)
                (2024, 1, 5) ("backup/2024/01/05.md") [],
              [("backup/2024/01/05.md",
                dayContent ({} : Config) (fun _ => 0) (fun u => u) (2024, 1, 5) [])])
    ∧ save_daily_posts ({} : Config) (fun _ => 0) (fun u => u) (fun _ => true)
        [("backup/2024/01/05.md",
          dayContent ({} : Config) (fun _ => 0) (fun u => u) (2024, 1, 5) [])]
        ("2024/01/05") []
      = some ([], [("backup/2024/01/05.md",
                    dayContent ({} : Config) (fun _ => 0) (fun u => u) (2024, 1, 5) [])]) := by
  have h := (claim_C2_idempotent ({} : Config) (fun _ => 0) (fun u => u) (fun _ => true) []
    ("2024/01/05") [] ("backup/2024/01/05.md") (2024, 1, 5) rfl rfl).2
    (fun c hc => by simp [List.lookup] at hc)
  exact ⟨h.1, h.2.2⟩

/-- C1 (amended): on a non-skipped run with `delete_after_backup` on,
`delete_post` is invoked exactly once per post id, in post order, but during
document assembly, before the single file write (which is the final event of
the run); the deletion outcomes `d` are universally quantified and absent
from every conclusion, so a failed deletion neither prevents the file write
nor the deletion of the remaining posts. -/
theorem claim_C1_delete_order (cfg : Config) (tz : Int → Int) (r : String → String)
    (d : String → Bool) (fs : List (String × String)) (dk : String) (posts : List Post)
    (fp : String) (ymd : Nat × Nat × Nat)
    (hdel : cfg.delete_after_backup = true)
    (hfp : dayFilePath cfg dk = some fp)
    (hymd : parseYMD dk = some ymd)
    (hsmall : ∀ c, List.lookup fp fs = some c → c.length ≤ 10) :
    save_daily_posts cfg tz r d fs dk posts
      = some (dayTrace cfg tz r d ymd fp posts,
              (fp, dayContent cfg tz r ymd posts) :: fs)
    ∧ deleteIds (dayTrace cfg tz r d ymd fp posts) = posts.map postId
    ∧ (dayTrace cfg tz r d ymd fp posts).getLast?
        = some (Event.fileWrite fp (dayContent cfg tz r ymd posts)) :=
  ⟨save_write_path cfg tz r d fs dk posts fp ymd hfp hymd hsmall,
   deleteIds_dayTrace cfg tz r d ymd fp posts hdel,
   dayTrace_getLast cfg tz r d ymd fp posts⟩

/-- Witness for C1 with one post, id `1`, and every deletion failing. -/
theorem claim_C1_witness :
    deleteIds (dayTrace ({ delete_after_backup := true, auth := true } : Config)
        (fun _ => 0) (fun u => u) (fun _ => false) (2024, 1, 5)
        ("backup/2024/01/05.md") [{ id_string := some ("1") }]) = ["1"]
    ∧ (dayTrace ({ delete_after_backup := true, auth := true } : Config)
        (fun _ => 0) (fun u => u) (fun _ => false) (2024, 1, 5)
        ("backup/2024/01/05.md") [{ id_string := some ("1") }]).getLast?
      = some (Event.fileWrite ("backup/2024/01/05.md")
          (dayContent ({ delete_after_backup := true, auth := true } : Config)
            (fun _ => 0) (fun u => u) (2024, 1, 5) [{ id_string := some ("1") }])) := by
  have h := claim_C1_delete_order ({ delete_after_backup := true, auth := true } : Config)
    (fun _ => 0) (fun u => u) (fun _ => false) [] ("2024/01/05")
    [{ id_string := some ("1") }] ("backup/2024/01/05.md") (2024, 1, 5)
    rfl rfl rfl (fun c hc => by simp [List.lookup] at hc)
  exact ⟨h.2.1.trans (by decide), h.2.2⟩

/-- C1 is false as stated: in this concrete non-skipped run the deletion of
post `1` is the first event of the trace and the file write the second, so
the deletion does not happen after the day document has been written. -/
theorem claim_C1_counterexample :
    (save_daily_posts ({ delete_after_backup := true, auth := true } : Config)
        (fun _ => 0) (fun u => u) (fun _ => false) [] ("2024/01/05")
        [{ id_string := some ("1") }]).map Prod.fst
      = some [Event.deleteCall ("1") false,
              Event.fileWrite ("backup/2024/01/05.md") ("# 2024-01-05\n\n## 00:00\n\n")]
    ∧ deletesOnlyAfterWriteB
        [Event.deleteCall ("1") false,
         Event.fileWrite ("backup/2024/01/05.md") ("# 2024-01-05\n\n## 00:00\n\n")]
      = false :=
  ⟨by decide, by decide⟩

end TB
